import Mathlib

/-!
Verification of the Aether admin front-end and of the routing /
circuit-breaker engine its data contracts describe.

Part 1 embeds, as Lean functions, the pure front-end code:
  * `formatCountdown` and `getProbeCountdown`
    (src/frontend/src/composables/useCountdownTimer.ts),
  * `sortApiFormats` and `API_FORMAT_ORDER`
    (src/frontend/src/api/proxy-nodes.ts),
  * the `max_probe_interval_minutes` form handler
    (src/frontend/src/features/auth/components/LoginDialog.vue).
Part 2 models, from the specification, the server-side Key Health
Tracker / Probe Scheduler / Selector whose implementation is not among
the supplied files (only its TypeScript contracts are).

JavaScript numbers coming from `Date.getTime()` differences are integer
millisecond counts, embedded as `Int`; health scores are embedded as `ℚ`.
-/

/-- Embeds `n.toString().padStart(2, '0')` for a natural number `n`. -/
def padStart2 (n : Nat) : String :=
  if n < 10 then "0" ++ toString n else toString n

/-- Embeds `Math.ceil(a / b)` on integer arguments with `b > 0`:
`⌈a / b⌉ = -⌊-a / b⌋`, and `Int.fdiv` is floor division. -/
def jsCeilDiv (a b : Int) : Int :=
  -(Int.fdiv (-a) b)

/-- The string `'探测中'` ("probing") that `formatCountdown` and
`getProbeCountdown` return once the probe time has elapsed. -/
def probingIndicator : String := "探测中"

/-- Embeds `formatCountdown(diffMs)` from `useCountdownTimer.ts`:
`totalSeconds = Math.ceil(diffMs / 1000)`; if `totalSeconds <= 0` the
probing indicator; otherwise `h:mm:ss` when there is a nonzero hour
field and `m:ss` otherwise, seconds (and minutes when hours show)
zero-padded by `padStart(2, '0')`. -/
def formatCountdown (diffMs : Int) : String :=
  let totalSeconds := jsCeilDiv diffMs 1000
  if totalSeconds ≤ 0 then probingIndicator
  else
    let t := totalSeconds.toNat
    let hours := t / 3600
    let minutes := t % 3600 / 60
    let seconds := t % 60
    if hours > 0 then
      toString hours ++ ":" ++ padStart2 minutes ++ ":" ++ padStart2 seconds
    else
      toString minutes ++ ":" ++ padStart2 seconds

/-- Embeds `getProbeCountdown(nextProbeAt, _tick)` from
`useCountdownTimer.ts`.  `nextProbeAt : Option String` covers the
TypeScript `string | null | undefined`; the JavaScript falsiness test
`!nextProbeAt` is true for `null`, `undefined` and the empty string.
`dateParse` stands for `new Date(s).getTime()` (epoch milliseconds) and
`now` for `new Date().getTime()`; the result is recomputed from `now`
on every call, which is exactly what "derived live, never cached"
means for a pure function of the current time. -/
def getProbeCountdown (nextProbeAt : Option String) (dateParse : String → Int)
    (now : Int) : Option String :=
  match nextProbeAt with
  | none => none
  | some s =>
    if s = "" then none
    else
      let diffMs := dateParse s - now
      if 0 < diffMs then some (formatCountdown diffMs)
      else some probingIndicator

/-- Embeds `API_FORMAT_ORDER` from `src/frontend/src/api/proxy-nodes.ts`. -/
def API_FORMAT_ORDER : List String :=
  ["openai:chat", "openai:cli", "openai:video",
   "claude:chat", "claude:cli",
   "gemini:chat", "gemini:cli", "gemini:video"]

/-- The sort key realised by the comparator of `sortApiFormats`: the
index in `API_FORMAT_ORDER`, with formats not listed there (`indexOf`
returns `-1`, and the comparator sends them after every listed format)
mapped to `API_FORMAT_ORDER.length`. -/
def formatSortKey (f : String) : Nat :=
  match List.indexOf? f API_FORMAT_ORDER with
  | some i => i
  | none => API_FORMAT_ORDER.length

/-- Embeds `sortApiFormats(formats)` from `proxy-nodes.ts`: the input is
copied (`[...formats]`) and stably sorted by the comparator
`(a, b) => aIdx - bIdx` with absent formats last; a stable sort by
`formatSortKey` realises exactly that comparator. -/
def sortApiFormats (formats : List String) : List String :=
  List.insertionSort (fun a b => formatSortKey a ≤ formatSortKey b) formats

/-- Modelled from the spec: `parseNumberInput` is imported by
`LoginDialog.vue` from `@/utils/form`, a file not among the supplied
sources.  Per the spec's "admin-configured per key, range 2–32 minutes
per observed UI constraint" and the call site's
`{ min: 2, max: 32 }` options, it parses the text of a numeric input,
yields nothing for empty or non-numeric text, and clamps a parsed
number into `[lo, hi]`. -/
def parseNumberInput (v : String) (lo hi : Nat) : Option Nat :=
  match v.toNat? with
  | none => none
  | some n => some (max lo (min n hi))

/-- Embeds the `max_probe_interval_minutes` update handler of
`LoginDialog.vue` line 928:
`form.max_probe_interval_minutes = parseNumberInput(v, { min: 2, max: 32 }) ?? 32`. -/
def updateMaxProbeInterval (v : String) : Nat :=
  (parseNumberInput v 2 32).getD 32

/-- Modelled from the spec: the outcome alphabet of `recordOutcome`
(§4.1: `outcome ∈ {success, timeout, error, rate_limited}`); the
routing engine that consumes it is not among the supplied files. -/
inductive Outcome
  | success
  | timeout
  | error
  | rate_limited
deriving DecidableEq

/-- Modelled from the spec: health-affecting failures.  §4.1 treats
`timeout` and `error` as failures; §7 says `RateLimited` is "not
counted as a health-affecting failure" by itself. -/
def Outcome.isFailure : Outcome → Bool
  | .timeout => true
  | .error => true
  | _ => false

/-- Modelled from the spec: per-(key, format) state kept by the Key
Health Tracker and Probe Scheduler (§4.1, §4.2), mirroring the
`RoutingKeyInfo` contract fields `health_score`,
`circuit_breaker_open` and `next_probe_at` plus the probe-in-flight
flag and backoff interval the spec requires.  Scores are rationals in
`[0,1]`; times are epoch minutes; `interval` is in minutes. -/
structure BreakerState where
  health_score : ℚ
  consecutive_failures : Nat
  circuit_breaker_open : Bool
  probe_in_flight : Bool
  interval : Nat
  next_probe_at : Option Int
deriving DecidableEq

/-- Modelled from the spec: tuning constants of §4.1/§4.2 — EMA toward
1.0 or 0.0 with factor 9/10, score threshold 0.3, consecutive-failure
threshold, base probe interval 2 minutes, cap
`max_probe_interval_minutes` (admin range 2–32). -/
structure ProbeConfig where
  base_interval : Nat := 2
  max_probe_interval_minutes : Nat := 32
  score_threshold : ℚ := 3/10
  failure_threshold : Nat := 5
deriving DecidableEq

/-- Modelled from the spec: `recordOutcome(key, format, outcome)`
(§4.1) together with the Probe Scheduler algorithm (§4.2).
On success the score moves toward 1.0 (`score*0.9 + 1.0*0.1`); a
successful probe closes the breaker, clears `next_probe_at` and resets
the interval.  On failure the score moves toward 0.0 (`score*0.9`); a
failed probe doubles the interval capped at
`max_probe_interval_minutes` and reschedules `next_probe_at = now +
interval`; a failure of a closed-breaker key below the score threshold
or past the consecutive-failure threshold opens the breaker with the
base interval.  `rate_limited` is a no-op for health (§7). -/
def recordOutcome (cfg : ProbeConfig) (now : Int) (o : Outcome)
    (st : BreakerState) : BreakerState :=
  match o with
  | .success =>
    let score := st.health_score * (9/10) + 1/10
    if st.circuit_breaker_open then
      { st with
        health_score := score
        consecutive_failures := 0
        circuit_breaker_open := false
        probe_in_flight := false
        interval := cfg.base_interval
        next_probe_at := none }
    else
      { st with health_score := score, consecutive_failures := 0 }
  | .rate_limited => st
  | _ =>
    let score := st.health_score * (9/10)
    let fails := st.consecutive_failures + 1
    if st.circuit_breaker_open then
      let itv := min (st.interval * 2) cfg.max_probe_interval_minutes
      { st with
        health_score := score
        consecutive_failures := fails
        probe_in_flight := false
        interval := itv
        next_probe_at := some (now + itv) }
    else if score < cfg.score_threshold ∨ cfg.failure_threshold ≤ fails then
      { st with
        health_score := score
        consecutive_failures := fails
        circuit_breaker_open := true
        interval := cfg.base_interval
        next_probe_at := some (now + cfg.base_interval) }
    else
      { st with health_score := score, consecutive_failures := fails }

/-- Modelled from the spec: folds a sequence of `(now, outcome)`
observations through `recordOutcome` (§5: each request performs
Selector → attempt → outcome-record). -/
def runOutcomes (cfg : ProbeConfig) (events : List (Int × Outcome))
    (st : BreakerState) : BreakerState :=
  events.foldl (fun s e => recordOutcome cfg e.1 e.2 s) st

/-- Modelled from the spec: `isEligible(key, format)` with the probe
bookkeeping of §4.1 and the defensive rule of §7: eligible when the
breaker is closed; a breaker-open key is ineligible strictly before
`next_probe_at`; once `now ≥ next_probe_at` the request is the probe
and the in-flight flag is set (at most one concurrent probe); a
breaker open with null `next_probe_at` is treated as "not yet
eligible, schedule a probe now" rather than raising.  Returns the
eligibility verdict together with the updated state. -/
def checkEligibility (now : Int) (st : BreakerState) : Bool × BreakerState :=
  if st.circuit_breaker_open then
    match st.next_probe_at with
    | none => (false, { st with next_probe_at := some now })
    | some t =>
      if now < t then (false, st)
      else if st.probe_in_flight then (false, st)
      else (true, { st with probe_in_flight := true })
  else (true, st)

/-- Modelled from the spec: the eligibility verdict alone (§4.1
`isEligible(key, format) -> bool`). -/
def isEligible (now : Int) (st : BreakerState) : Bool :=
  (checkEligibility now st).1

/-- Modelled from the spec: the Selector's breaker filter (§4.3 step 1
"key eligible per 4.1") over a list of keys tagged with their breaker
state. -/
def selectCandidates (now : Int) (ks : List (String × BreakerState)) :
    List (String × BreakerState) :=
  ks.filter (fun p => isEligible now p.2)

/-- Modelled from the spec: a key's per-format breaker map — §9 "a
tagged set keyed by format": `circuit_breaker_open` of the
`RoutingKeyInfo` contract is per (key, format). -/
def RoutingKeyState : Type := List (String × BreakerState)

/-- Modelled from the spec: the `circuit_breaker_formats` list of the
`RoutingKeyInfo` contract — the formats whose breaker is open. -/
def circuit_breaker_formats (ks : List (String × BreakerState)) : List String :=
  (ks.filter (fun p => p.2.circuit_breaker_open)).map Prod.fst

/-- Modelled from the spec: `recordOutcome` routed to one format's
breaker record of a key. -/
def applyOutcome (cfg : ProbeConfig) (now : Int) (format : String)
    (o : Outcome) (ks : List (String × BreakerState)) :
    List (String × BreakerState) :=
  ks.map (fun p => if p.1 = format then (p.1, recordOutcome cfg now o p.2) else p)

/-- Modelled from the spec: an eligibility check (with its probe
bookkeeping and defensive repair) routed to one format's breaker
record of a key. -/
def applyEligibility (now : Int) (format : String)
    (ks : List (String × BreakerState)) : List (String × BreakerState) :=
  ks.map (fun p => if p.1 = format then (p.1, (checkEligibility now p.2).2) else p)

/-- The `RoutingKeyInfo` invariant stated by the spec's data model: a
format whose breaker is open is listed in `circuit_breaker_formats`
and carries a non-null `next_probe_at` unless its probe is in
flight. -/
def keyInv (ks : List (String × BreakerState)) : Prop :=
  ∀ p ∈ ks, p.2.circuit_breaker_open = true →
    p.1 ∈ circuit_breaker_formats ks ∧
      (p.2.probe_in_flight = true ∨ p.2.next_probe_at ≠ none)

/-- Embeds the `RoutingKeyInfo` interface of the routing-preview
contract (src/unnamed/part_002).  TypeScript `number | null` and
optional fields become `Option`; `Record<string, number>` becomes an
association list. -/
structure RoutingKeyInfo where
  id : String
  name : String
  masked_key : String
  internal_priority : Nat
  global_priority_by_format : Option (List (String × Nat))
  rpm_limit : Option Nat
  is_adaptive : Bool
  effective_rpm : Option Nat
  cache_ttl_minutes : Nat
  health_score : ℚ
  is_active : Bool
  api_formats : List String
  allowed_models : Option (List String)
  circuit_breaker_open : Bool
  circuit_breaker_formats : List String
  next_probe_at : Option String
deriving DecidableEq

/-- Modelled from the spec: the priority used by the Selector's
`priority` mode (§4.3) — "ascending `internal_priority` (or
`global_priority_by_format[format]` if present)". -/
def effectivePriority (format : String) (k : RoutingKeyInfo) : Nat :=
  match k.global_priority_by_format with
  | none => k.internal_priority
  | some m =>
    match m.lookup format with
    | some p => p
    | none => k.internal_priority

/-- Modelled from the spec: the Selector's `priority` ranking (§4.3) —
a stable sort ascending by `effectivePriority`, ties broken by
insertion order. -/
def rankByPriority (format : String) (candidates : List RoutingKeyInfo) :
    List RoutingKeyInfo :=
  List.insertionSort
    (fun a b => effectivePriority format a ≤ effectivePriority format b) candidates

/-- A healthy, unconstrained key with the given `internal_priority`,
used to instantiate the spec's priority-mode example. -/
def sampleKey (prio : Nat) : RoutingKeyInfo :=
  { id := toString prio
    name := "k"
    masked_key := "***"
    internal_priority := prio
    global_priority_by_format := none
    rpm_limit := none
    is_adaptive := true
    effective_rpm := none
    cache_ttl_minutes := 5
    health_score := 1
    is_active := true
    api_formats := ["openai:chat"]
    allowed_models := none
    circuit_breaker_open := false
    circuit_breaker_formats := []
    next_probe_at := none }

/-- The closed, healthy state a fresh key starts in. -/
def initialBreakerState : BreakerState :=
  { health_score := 1
    consecutive_failures := 0
    circuit_breaker_open := false
    probe_in_flight := false
    interval := 2
    next_probe_at := none }
/-- A breaker-open state whose probe window has not yet arrived. -/
def openBreakerState : BreakerState :=
  { health_score := 1/4
    consecutive_failures := 5
    circuit_breaker_open := true
    probe_in_flight := false
    interval := 2
    next_probe_at := some 50 }
/-- A breaker-open state whose probe window has arrived and whose
probe is not yet in flight. -/
def probeDueState : BreakerState :=
  { health_score := 1/2
    consecutive_failures := 5
    circuit_breaker_open := true
    probe_in_flight := false
    interval := 2
    next_probe_at := some 50 }
/-- A malformed state: breaker open but `next_probe_at` null. -/
def malformedBreakerState : BreakerState :=
  { health_score := 1/2
    consecutive_failures := 5
    circuit_breaker_open := true
    probe_in_flight := false
    interval := 2
    next_probe_at := none }
/-- The per-format part of the `RoutingKeyInfo` invariant: an open
breaker carries a probe in flight or a non-null `next_probe_at`. -/
def breakerInv (st : BreakerState) : Prop :=
  st.circuit_breaker_open = true →
    st.probe_in_flight = true ∨ st.next_probe_at ≠ none

lemma padStart2_length_eq_two (m : Nat) (hm : m < 100) : (padStart2 m).length = 2 := by
  revert hm
  revert m
  decide

lemma colon_not_mem_probingIndicator : (':' : Char) ∉ probingIndicator.data := by
  decide

lemma append_colon_ne_probingIndicator (a b : String) :
    a ++ ":" ++ b ≠ probingIndicator := by
  intro h
  apply colon_not_mem_probingIndicator
  rw [← h]
  have hc : (":" : String).data = [':'] := rfl
  simp [String.data_append, hc]

lemma jsCeilDiv_eq (a : Int) : jsCeilDiv a 1000 = -((-a) / 1000) := by
  unfold jsCeilDiv
  rw [Int.fdiv_eq_ediv _ (by norm_num)]

/-- Claim C9: `formatCountdown(diffMs)` returns the probing indicator
exactly when `diffMs ≤ 0`; for positive `diffMs` it takes
`totalSeconds = Math.ceil(diffMs / 1000)` (characterised by the two
bounds below) and renders `m:ss` below one hour and `h:mm:ss` from one
hour on, with the two-digit zero-padded fields `mm`/`ss` strictly
below 60. -/
theorem formatCountdown_spec (diffMs : Int) :
    (diffMs ≤ 0 → formatCountdown diffMs = probingIndicator) ∧
    (0 < diffMs →
      formatCountdown diffMs ≠ probingIndicator ∧
      (let t : Nat := (jsCeilDiv diffMs 1000).toNat
       let m : Nat := t % 3600 / 60
       let s : Nat := t % 60
       diffMs ≤ 1000 * (t : Int) ∧ 1000 * ((t : Int) - 1) < diffMs ∧
       m < 60 ∧ s < 60 ∧
       (padStart2 m).length = 2 ∧ (padStart2 s).length = 2 ∧
       (t < 3600 → formatCountdown diffMs = toString m ++ ":" ++ padStart2 s) ∧
       (3600 ≤ t → formatCountdown diffMs =
          toString (t / 3600) ++ ":" ++ padStart2 m ++ ":" ++ padStart2 s))) := by
  have hq := jsCeilDiv_eq diffMs
  constructor
  · intro h
    have hle : jsCeilDiv diffMs 1000 ≤ 0 := by rw [hq]; omega
    unfold formatCountdown
    rw [if_pos hle]
  · intro h
    have hpos : 0 < jsCeilDiv diffMs 1000 := by rw [hq]; omega
    have hnle : ¬ jsCeilDiv diffMs 1000 ≤ 0 := by omega
    have ht : ((jsCeilDiv diffMs 1000).toNat : Int) = jsCeilDiv diffMs 1000 := by omega
    have hfc : formatCountdown diffMs =
        (if (jsCeilDiv diffMs 1000).toNat / 3600 > 0 then
          toString ((jsCeilDiv diffMs 1000).toNat / 3600) ++ ":" ++
            padStart2 ((jsCeilDiv diffMs 1000).toNat % 3600 / 60) ++ ":" ++
            padStart2 ((jsCeilDiv diffMs 1000).toNat % 60)
        else
          toString ((jsCeilDiv diffMs 1000).toNat % 3600 / 60) ++ ":" ++
            padStart2 ((jsCeilDiv diffMs 1000).toNat % 60)) := by
      unfold formatCountdown
      rw [if_neg hnle]
    refine ⟨?_, ?_, ?_, ?_, ?_, ?_, ?_, ?_, ?_⟩
    · rw [hfc]
      split
      · exact append_colon_ne_probingIndicator _ _
      · exact append_colon_ne_probingIndicator _ _
    · rw [hq] at ht ⊢
      omega
    · rw [hq] at ht ⊢
      omega
    · omega
    · omega
    · exact padStart2_length_eq_two _ (by omega)
    · exact padStart2_length_eq_two _ (by omega)
    · intro hlt
      rw [hfc, if_neg (by omega : ¬ (jsCeilDiv diffMs 1000).toNat / 3600 > 0)]
    · intro hge
      rw [hfc, if_pos (by omega : (jsCeilDiv diffMs 1000).toNat / 3600 > 0)]

theorem formatCountdown_spec_witness :
    formatCountdown (-500) = probingIndicator ∧
    formatCountdown 90000 ≠ probingIndicator :=
  ⟨(formatCountdown_spec (-500)).1 (by decide),
   ((formatCountdown_spec 90000).2 (by decide)).1⟩

/-- Claim C6: the probe countdown is recomputed at read time from
`next_probe_at - now`: `getProbeCountdown` yields `none` for a
null/undefined `next_probe_at`, the formatted remaining time
`formatCountdown (next_probe_at - now)` when the probe time lies
strictly in the future, and the probing indicator once it has
elapsed.  The result is a pure function of the current clock reading
`now` (and of the parse of the timestamp), so no cached value can be
returned. -/
theorem getProbeCountdown_live (dateParse : String → Int) (now : Int)
    (s : String) (hs : s ≠ "") :
    getProbeCountdown none dateParse now = none ∧
    (0 < dateParse s - now →
      getProbeCountdown (some s) dateParse now
        = some (formatCountdown (dateParse s - now))) ∧
    (dateParse s - now ≤ 0 →
      getProbeCountdown (some s) dateParse now = some probingIndicator) := by
  refine ⟨rfl, ?_, ?_⟩
  · intro hpos
    show (if s = "" then (none : Option String)
        else if 0 < dateParse s - now then
          some (formatCountdown (dateParse s - now))
        else some probingIndicator)
      = some (formatCountdown (dateParse s - now))
    rw [if_neg hs, if_pos hpos]
  · intro hle
    show (if s = "" then (none : Option String)
        else if 0 < dateParse s - now then
          some (formatCountdown (dateParse s - now))
        else some probingIndicator)
      = some probingIndicator
    rw [if_neg hs, if_neg (by omega : ¬ 0 < dateParse s - now)]

theorem getProbeCountdown_live_witness :
    getProbeCountdown none (fun _ => 1000) 0 = none ∧
    getProbeCountdown (some "2024-01-01T00:00:01Z") (fun _ => 1000) 0
      = some (formatCountdown 1000) :=
  ⟨(getProbeCountdown_live (fun _ => 1000) 0 "2024-01-01T00:00:01Z"
      (by decide)).1,
   (getProbeCountdown_live (fun _ => 1000) 0 "2024-01-01T00:00:01Z"
      (by decide)).2.1 (by decide)⟩

/-- Claim C7: the stored `max_probe_interval_minutes` always lies in
`[2, 32]`, and empty or non-numeric input falls back to the default
32, per the handler
`parseNumberInput(v, { min: 2, max: 32 }) ?? 32` (with
`parseNumberInput` modelled from the spec's 2–32 UI constraint). -/
theorem updateMaxProbeInterval_range (v : String) :
    (2 ≤ updateMaxProbeInterval v ∧ updateMaxProbeInterval v ≤ 32) ∧
    (v.toNat? = none → updateMaxProbeInterval v = 32) := by
  unfold updateMaxProbeInterval parseNumberInput
  cases hv : v.toNat? with
  | none => exact ⟨⟨by norm_num, by norm_num⟩, fun _ => rfl⟩
  | some n =>
    refine ⟨⟨?_, ?_⟩, fun hc => by simp at hc⟩
    · simp only [Option.getD_some]
      omega
    · simp only [Option.getD_some]
      omega

theorem updateMaxProbeInterval_range_witness :
    (2 ≤ updateMaxProbeInterval "" ∧ updateMaxProbeInterval "" ≤ 32) ∧
    updateMaxProbeInterval "" = 32 :=
  ⟨(updateMaxProbeInterval_range "").1,
   (updateMaxProbeInterval_range "").2 (by decide)⟩

lemma formatSortKey_lt_iff_mem (x : String) :
    formatSortKey x < API_FORMAT_ORDER.length ↔ x ∈ API_FORMAT_ORDER := by
  constructor
  · intro hx
    by_contra hmem
    have hnone : List.indexOf? x API_FORMAT_ORDER = none := by
      rw [List.indexOf?_eq_none_iff]
      intro y hy
      simp only [beq_iff_eq]
      intro h
      exact hmem (h ▸ hy)
    unfold formatSortKey at hx
    rw [hnone] at hx
    exact lt_irrefl _ hx
  · intro hx
    have : x = "openai:chat" ∨ x = "openai:cli" ∨ x = "openai:video" ∨
        x = "claude:chat" ∨ x = "claude:cli" ∨
        x = "gemini:chat" ∨ x = "gemini:cli" ∨ x = "gemini:video" := by
      simpa [API_FORMAT_ORDER] using hx
    rcases this with h | h | h | h | h | h | h | h <;> subst h <;> decide

/-- Claim C10: `sortApiFormats` is pure on an immutable copy of its
input (the source spreads into a fresh array) and returns a
permutation of the input, ordered ascending by `formatSortKey` — so
every format listed in `API_FORMAT_ORDER` (key `< 8`, its index there)
comes, in that order, before every unlisted format (key `= 8`) — and
it is idempotent. -/
theorem sortApiFormats_spec (formats : List String) :
    List.Perm (sortApiFormats formats) formats ∧
    List.Sorted (fun a b => formatSortKey a ≤ formatSortKey b)
      (sortApiFormats formats) ∧
    (∀ x : String, formatSortKey x < API_FORMAT_ORDER.length ↔
      x ∈ API_FORMAT_ORDER) ∧
    sortApiFormats (sortApiFormats formats) = sortApiFormats formats := by
  haveI : IsTotal String (fun a b => formatSortKey a ≤ formatSortKey b) :=
    ⟨fun a b => Nat.le_total _ _⟩
  haveI : IsTrans String (fun a b => formatSortKey a ≤ formatSortKey b) :=
    ⟨fun _ _ _ hab hbc => Nat.le_trans hab hbc⟩
  have hsorted : List.Sorted (fun a b => formatSortKey a ≤ formatSortKey b)
      (sortApiFormats formats) := List.sorted_insertionSort _ _
  exact ⟨List.perm_insertionSort _ _, hsorted, formatSortKey_lt_iff_mem,
    hsorted.insertionSort_eq⟩

lemma recordOutcome_health_score_step (cfg : ProbeConfig) (now : Int)
    (o : Outcome) (st : BreakerState)
    (h0 : 0 ≤ st.health_score) (h1 : st.health_score ≤ 1) :
    0 ≤ (recordOutcome cfg now o st).health_score ∧
      (recordOutcome cfg now o st).health_score ≤ 1 := by
  cases o <;> simp only [recordOutcome] <;>
    first
      | exact ⟨h0, h1⟩
      | (split_ifs <;> constructor <;> simp only [] <;> linarith)


/-- Claim C1: for every sequence of `recordOutcome` observations
applied to a key whose `health_score` starts in `[0,1]`, the score
stays in the closed interval `[0,1]` after each call — each step is an
exponential moving average toward 1 (success) or 0 (failure), which
maps `[0,1]` into itself. -/
theorem runOutcomes_health_score_bounded (cfg : ProbeConfig)
    (events : List (Int × Outcome)) (st : BreakerState)
    (h0 : 0 ≤ st.health_score) (h1 : st.health_score ≤ 1) :
    0 ≤ (runOutcomes cfg events st).health_score ∧
      (runOutcomes cfg events st).health_score ≤ 1 := by
  induction events generalizing st with
  | nil => exact ⟨h0, h1⟩
  | cons e tl ih =>
    have hstep := recordOutcome_health_score_step cfg e.1 e.2 st h0 h1
    simpa [runOutcomes] using ih (recordOutcome cfg e.1 e.2 st) hstep.1 hstep.2

theorem runOutcomes_health_score_bounded_witness :
    0 ≤ (runOutcomes {} [(0, Outcome.error), (1, Outcome.error),
        (2, Outcome.success)] initialBreakerState).health_score ∧
      (runOutcomes {} [(0, Outcome.error), (1, Outcome.error),
        (2, Outcome.success)] initialBreakerState).health_score ≤ 1 :=
  runOutcomes_health_score_bounded {} _ initialBreakerState
    (by simp [initialBreakerState]) (by simp [initialBreakerState])


/-- Claim C3: the Probe Scheduler's capped exponential backoff.  When
a failure opens the breaker the interval starts at the base interval
and the probe is scheduled `base` minutes out; each failed probe sets
`interval = min (interval * 2) max_probe_interval_minutes`, which
never decreases the interval (as long as it was within the cap) and
never exceeds the cap, and reschedules `next_probe_at = now + the new
interval`; a successful probe closes the breaker and resets the
interval to base.  Step-wise monotonicity plus the preserved cap bound
give non-decrease across any run of consecutive failed probes. -/
theorem probe_backoff_spec (cfg : ProbeConfig) (now : Int) (o : Outcome)
    (st : BreakerState) (ho : o.isFailure = true) :
    (st.circuit_breaker_open = false →
      (recordOutcome cfg now o st).circuit_breaker_open = true →
      (recordOutcome cfg now o st).interval = cfg.base_interval ∧
      (recordOutcome cfg now o st).next_probe_at
        = some (now + cfg.base_interval)) ∧
    (st.circuit_breaker_open = true →
      (recordOutcome cfg now o st).interval
          = min (st.interval * 2) cfg.max_probe_interval_minutes ∧
      (recordOutcome cfg now o st).next_probe_at
          = some (now + (recordOutcome cfg now o st).interval) ∧
      (recordOutcome cfg now o st).interval ≤ cfg.max_probe_interval_minutes ∧
      (st.interval ≤ cfg.max_probe_interval_minutes →
        st.interval ≤ (recordOutcome cfg now o st).interval)) ∧
    (st.circuit_breaker_open = true →
      (recordOutcome cfg now Outcome.success st).circuit_breaker_open = false ∧
      (recordOutcome cfg now Outcome.success st).interval
        = cfg.base_interval) := by
  refine ⟨?_, ?_, ?_⟩
  · intro hclosed hopened
    cases o <;> simp [Outcome.isFailure] at ho <;>
      simp only [recordOutcome, hclosed, if_false, Bool.false_eq_true] at hopened ⊢ <;>
      split_ifs at hopened ⊢ with hth <;> simp_all
  · intro hopen
    have hr : recordOutcome cfg now o st =
        { st with
          health_score := st.health_score * (9/10)
          consecutive_failures := st.consecutive_failures + 1
          probe_in_flight := false
          interval := min (st.interval * 2) cfg.max_probe_interval_minutes
          next_probe_at :=
            some (now + min (st.interval * 2) cfg.max_probe_interval_minutes) } := by
      cases o <;> simp [Outcome.isFailure] at ho <;> simp [recordOutcome, hopen]
    rw [hr]
    refine ⟨rfl, rfl, Nat.min_le_right _ _, fun hle => ?_⟩
    simp only []
    omega
  · intro hopen
    have hr : recordOutcome cfg now Outcome.success st =
        { st with
          health_score := st.health_score * (9/10) + 1/10
          consecutive_failures := 0
          circuit_breaker_open := false
          probe_in_flight := false
          interval := cfg.base_interval
          next_probe_at := none } := by
      simp [recordOutcome, hopen]
    rw [hr]
    exact ⟨rfl, rfl⟩

theorem probe_backoff_spec_witness :
    (recordOutcome {} 100 Outcome.error openBreakerState).interval
        = min (openBreakerState.interval * 2)
            ({} : ProbeConfig).max_probe_interval_minutes ∧
      (recordOutcome {} 100 Outcome.error openBreakerState).next_probe_at
        = some (100 + (recordOutcome {} 100 Outcome.error
            openBreakerState).interval) ∧
      (recordOutcome {} 100 Outcome.error openBreakerState).interval
        ≤ ({} : ProbeConfig).max_probe_interval_minutes ∧
      openBreakerState.interval
        ≤ (recordOutcome {} 100 Outcome.error openBreakerState).interval :=
  have h := (probe_backoff_spec {} 100 Outcome.error openBreakerState rfl).2.1 rfl
  ⟨h.1, h.2.1, h.2.2.1, h.2.2.2 (by decide)⟩

/-- Claim C2: a (key, format) with an open breaker is never returned
by the Selector while `now < next_probe_at` — `isEligible` is false
and the candidate is filtered out of every candidate list — and once
`now ≥ next_probe_at` (probe not already in flight) `isEligible` is
true and that request becomes the probe: the eligibility check marks
the probe in flight, which is the mechanism the spec prescribes so
that concurrent requests cannot all become probes. -/
theorem breaker_open_selection (now t : Int) (st : BreakerState)
    (hopen : st.circuit_breaker_open = true)
    (hnpa : st.next_probe_at = some t) :
    (now < t →
      isEligible now st = false ∧
      ∀ (ks : List (String × BreakerState)) (k : String),
        (k, st) ∉ selectCandidates now ks) ∧
    (t ≤ now → st.probe_in_flight = false →
      isEligible now st = true ∧
      (checkEligibility now st).2.probe_in_flight = true) := by
  constructor
  · intro hlt
    have he : isEligible now st = false := by
      unfold isEligible checkEligibility
      rw [hopen, hnpa]
      simp [hlt]
    refine ⟨he, fun ks k hmem => ?_⟩
    have := (List.mem_filter.mp hmem).2
    rw [he] at this
    exact Bool.false_ne_true this
  · intro hge hflight
    unfold isEligible checkEligibility
    rw [hopen, hnpa, hflight]
    simp [not_lt.mpr hge]


theorem breaker_open_selection_witness :
    (isEligible 10 probeDueState = false ∧
      ("k1", probeDueState) ∉ selectCandidates 10 [("k1", probeDueState)]) ∧
    (isEligible 60 probeDueState = true ∧
      (checkEligibility 60 probeDueState).2.probe_in_flight = true) :=
  have h1 := (breaker_open_selection 10 50 probeDueState rfl rfl).1 (by decide)
  have h2 := (breaker_open_selection 60 50 probeDueState rfl rfl).2
    (by decide) rfl
  ⟨⟨h1.1, h1.2 [("k1", probeDueState)] "k1"⟩, h2⟩


/-- Claim C8: a key in the inconsistent state "breaker open with null
`next_probe_at`" is handled defensively by the eligibility check that
consumes breaker state: the key is reported not eligible and a probe
is scheduled immediately (`next_probe_at := now`), nothing else of the
state is touched.  `checkEligibility`, like every operation of the
model, is a total function, so no error can be raised on malformed
state. -/
theorem malformed_state_defensive (now : Int) (st : BreakerState)
    (hopen : st.circuit_breaker_open = true)
    (hnpa : st.next_probe_at = none) :
    checkEligibility now st = (false, { st with next_probe_at := some now }) := by
  unfold checkEligibility
  rw [hopen, hnpa]
  simp

theorem malformed_state_defensive_witness :
    checkEligibility 7 malformedBreakerState
      = (false, { malformedBreakerState with next_probe_at := some 7 }) :=
  malformed_state_defensive 7 malformedBreakerState rfl rfl


lemma breakerInv_recordOutcome (cfg : ProbeConfig) (now : Int) (o : Outcome)
    (st : BreakerState) (h : breakerInv st) :
    breakerInv (recordOutcome cfg now o st) := by
  unfold breakerInv at h ⊢
  cases o <;> simp only [recordOutcome] <;>
    first
      | exact h
      | (split_ifs <;> simp_all)

lemma breakerInv_checkEligibility (now : Int) (st : BreakerState) :
    breakerInv (checkEligibility now st).2 := by
  unfold breakerInv checkEligibility
  by_cases hopen : st.circuit_breaker_open = true
  · rw [if_pos hopen]
    cases hnpa : st.next_probe_at with
    | none => simp
    | some t =>
      dsimp only []
      by_cases hlt : now < t
      · rw [if_pos hlt]
        simp_all
      · rw [if_neg hlt]
        split_ifs <;> simp_all
  · rw [if_neg hopen]
    intro hc
    exact absurd hc hopen

lemma mem_circuit_breaker_formats (ks : List (String × BreakerState))
    (p : String × BreakerState) (hp : p ∈ ks)
    (ho : p.2.circuit_breaker_open = true) :
    p.1 ∈ circuit_breaker_formats ks :=
  List.mem_map.mpr ⟨p, List.mem_filter.mpr ⟨hp, by simp [ho]⟩, rfl⟩

lemma keyInv_of_pointwise (ks : List (String × BreakerState))
    (h : ∀ p ∈ ks, breakerInv p.2) : keyInv ks :=
  fun p hp ho => ⟨mem_circuit_breaker_formats ks p hp ho, h p hp ho⟩

lemma mem_map_update (f : BreakerState → BreakerState) (format : String)
    (ks : List (String × BreakerState)) (q : String × BreakerState)
    (hq : q ∈ ks.map (fun p => if p.1 = format then (p.1, f p.2) else p)) :
    ∃ p ∈ ks, q = p ∨ q = (p.1, f p.2) := by
  obtain ⟨p, hp, hpq⟩ := List.mem_map.mp hq
  refine ⟨p, hp, ?_⟩
  by_cases hf : p.1 = format
  · rw [if_pos hf] at hpq
    exact Or.inr hpq.symm
  · rw [if_neg hf] at hpq
    exact Or.inl hpq.symm

/-- Claim C4: the `RoutingKeyInfo` invariant — every format `F` with
an open breaker is listed in `circuit_breaker_formats` and has a
non-null `next_probe_at` unless its probe is already in flight — is
preserved by every operation that mutates breaker state: by
`recordOutcome` on any format of the key and by the eligibility check
(probe bookkeeping and defensive repair) on any format of the key. -/
theorem keyInv_preserved (cfg : ProbeConfig) (now : Int) (format : String)
    (o : Outcome) (ks : List (String × BreakerState)) (h : keyInv ks) :
    keyInv (applyOutcome cfg now format o ks) ∧
      keyInv (applyEligibility now format ks) := by
  have hpt : ∀ p ∈ ks, breakerInv p.2 := fun p hp ho => (h p hp ho).2
  constructor
  · apply keyInv_of_pointwise
    intro q hq
    unfold applyOutcome at hq
    obtain ⟨p, hp, hcase⟩ :=
      mem_map_update (recordOutcome cfg now o) format ks q hq
    rcases hcase with hcase | hcase <;> rw [hcase]
    · exact hpt p hp
    · exact breakerInv_recordOutcome cfg now o p.2 (hpt p hp)
  · apply keyInv_of_pointwise
    intro q hq
    unfold applyEligibility at hq
    obtain ⟨p, hp, hcase⟩ :=
      mem_map_update (fun st => (checkEligibility now st).2) format ks q hq
    rcases hcase with hcase | hcase <;> rw [hcase]
    · exact hpt p hp
    · exact breakerInv_checkEligibility now p.2

theorem keyInv_preserved_witness :
    keyInv (applyOutcome {} 60 "openai:chat" Outcome.timeout
        [("openai:chat", probeDueState)]) ∧
      keyInv (applyEligibility 60 "openai:chat"
        [("openai:chat", probeDueState)]) :=
  keyInv_preserved {} 60 "openai:chat" Outcome.timeout
    [("openai:chat", probeDueState)]
    (keyInv_of_pointwise _ (by
      intro p hp
      simp only [List.mem_singleton] at hp
      subst hp
      intro ho
      exact Or.inr (by simp [probeDueState])))

lemma filter_orderedInsert_key {α : Type} (key : α → Nat) (p : Nat) (a : α)
    (l : List α) :
    (List.orderedInsert (fun x y => key x ≤ key y) a l).filter
        (fun x => key x == p)
      = if key a = p then a :: l.filter (fun x => key x == p)
        else l.filter (fun x => key x == p) := by
  induction l with
  | nil =>
    by_cases hap : key a = p
    · simp [List.orderedInsert, hap]
    · simp [List.orderedInsert, hap]
  | cons b tl ih =>
    by_cases hab : key a ≤ key b
    · simp only [List.orderedInsert, if_pos hab]
      by_cases hap : key a = p
      · simp [List.filter_cons, hap]
      · simp [List.filter_cons, hap]
    · simp only [List.orderedInsert, if_neg hab]
      have hba : key b < key a := Nat.lt_of_not_le hab
      by_cases hbp : key b = p
      · have hap : key a ≠ p := by omega
        simp [List.filter_cons, hbp, hap, ih]
      · simp [List.filter_cons, hbp, ih]

lemma insertionSort_filter_key {α : Type} (key : α → Nat) (p : Nat)
    (l : List α) :
    (List.insertionSort (fun x y => key x ≤ key y) l).filter
        (fun x => key x == p)
      = l.filter (fun x => key x == p) := by
  induction l with
  | nil => rfl
  | cons a tl ih =>
    simp only [List.insertionSort]
    rw [filter_orderedInsert_key, ih]
    by_cases hap : key a = p
    · simp [List.filter_cons, hap]
    · simp [List.filter_cons, hap]

/-- Claim C5: in priority scheduling mode the Selector returns the
candidates ascending by effective priority
(`global_priority_by_format[format]` when present, else
`internal_priority`); the ranking is a permutation of the candidate
list, sorted by effective priority, and stable — for every priority
value the candidates carrying it keep their insertion order — and on
candidates with priorities `[3, 1, 2]` it returns them in the order
1, 2, 3. -/
theorem priority_ranking_spec (format : String)
    (candidates : List RoutingKeyInfo) :
    List.Perm (rankByPriority format candidates) candidates ∧
    List.Sorted
      (fun a b => effectivePriority format a ≤ effectivePriority format b)
      (rankByPriority format candidates) ∧
    (∀ p : Nat,
      (rankByPriority format candidates).filter
          (fun k => effectivePriority format k == p)
        = candidates.filter (fun k => effectivePriority format k == p)) ∧
    (rankByPriority format [sampleKey 3, sampleKey 1, sampleKey 2]).map
        (fun k => k.internal_priority) = [1, 2, 3] := by
  haveI : IsTotal RoutingKeyInfo
      (fun a b => effectivePriority format a ≤ effectivePriority format b) :=
    ⟨fun a b => Nat.le_total _ _⟩
  haveI : IsTrans RoutingKeyInfo
      (fun a b => effectivePriority format a ≤ effectivePriority format b) :=
    ⟨fun _ _ _ hab hbc => Nat.le_trans hab hbc⟩
  exact ⟨List.perm_insertionSort _ _, List.sorted_insertionSort _ _,
    fun p => insertionSort_filter_key (effectivePriority format) p candidates,
    rfl⟩
